import Mathlib

/-!
Shallow embedding of the certstore certificate validation / normalization
pipeline (Go sources: certificate handling, user validation, and the
ReadUserHandler certificate filter), together with theorems settling the
specification claims.

External library functions (encoding/pem, crypto/x509, crypto/sha256,
strconv, regexp) are modelled as fields of an explicit `CryptoLib`
environment; the repository's own logic is translated directly from the
source.  DER byte strings are `List Nat`; big integers are `Nat`.
-/

set_option maxRecDepth 4000

/-- Number of bits in the binary representation of a natural number,
with fuel so that it reduces by `decide`; models Go `big.Int.BitLen`
(0 for 0). -/
def bitLenAux : Nat → Nat → Nat
  | 0, _ => 0
  | fuel + 1, n => if n = 0 then 0 else bitLenAux fuel (n / 2) + 1

/-- Bit length of a natural number (Go `big.Int.BitLen`). -/
def bitLen (n : Nat) : Nat := bitLenAux n n

/-- The five-dash PEM delimiter used by `PEMBlockNormalize`. -/
def dashes : List Char := ("-----" : String).toList

/-- Fuel-driven splitter on the five-dash delimiter, mirroring Go
`strings.Split(s, "-----")`: leftmost non-overlapping matches. -/
def splitDashesAux : Nat → List Char → List Char → List (List Char)
  | _, [], acc => [acc.reverse]
  | 0, s, acc => [acc.reverse ++ s]
  | fuel + 1, c :: rest, acc =>
    if dashes.isPrefixOf (c :: rest) then
      acc.reverse :: splitDashesAux fuel (rest.drop 4) []
    else
      splitDashesAux fuel rest (c :: acc)

/-- Go `strings.Split(s, "-----")`. -/
def splitDashes (s : List Char) : List (List Char) :=
  splitDashesAux s.length s []

/-- Rejoin segments with a separator, mirroring Go `strings.Join`. -/
def joinWith (sep : List Char) : List (List Char) → List Char
  | [] => []
  | [x] => x
  | x :: y :: xs => x ++ sep ++ joinWith sep (y :: xs)

/-- Go `strings.Replace(s, " ", "\n", -1)`. -/
def spacesToNewlines (l : List Char) : List Char :=
  l.map fun c => if c = ' ' then '\n' else c

/-- Lowercase hex digit for a value below 16 (models encoding/hex). -/
def hexDigitChar (n : Nat) : Char :=
  if n < 10 then Char.ofNat (48 + n) else Char.ofNat (87 + n)

/-- Two lowercase hex digits of one byte. -/
def byteToHex (b : Nat) : List Char :=
  [hexDigitChar (b / 16 % 16), hexDigitChar (b % 16)]

/-- Go `hex.EncodeToString`: lowercase hex of a byte string. -/
def hexEncodeBytes (l : List Nat) : String :=
  String.mk (l.map byteToHex).flatten

/-- Value of one hex digit character (0 on non-hex input). -/
def hexVal (c : Char) : Nat :=
  if 48 ≤ c.toNat ∧ c.toNat ≤ 57 then c.toNat - 48
  else if 97 ≤ c.toNat ∧ c.toNat ≤ 102 then c.toNat - 87
  else 0

/-- Decode pairs of hex digit characters back into bytes. -/
def hexDecChars : List Char → List Nat
  | hi :: lo :: rest => (hexVal hi * 16 + hexVal lo) :: hexDecChars rest
  | _ => []

/-- Big-endian base-256 value of a byte string. -/
def natFromBase256 (l : List Nat) : Nat :=
  l.foldl (fun a b => a * 256 + b) 0

/-- Fixed-width big-endian base-256 digits of a natural number. -/
def base256DigitsAux : Nat → Nat → List Nat → List Nat
  | 0, _, acc => acc
  | w + 1, n, acc => base256DigitsAux w (n / 256) (n % 256 :: acc)

/-- Fixed-width big-endian base-256 digits of a natural number. -/
def base256Digits (w n : Nat) : List Nat := base256DigitsAux w n []

/-- Decimal value of a digit string. -/
def digitsToNat (l : List Char) : Nat :=
  l.foldl (fun a c => a * 10 + (c.toNat - 48)) 0

/-- The closed set of error values of the certificate / user pipeline
(the `Err…` sentinels of the Go source, plus `ParseFailed` for errors
propagated from the underlying x509/pem library calls). -/
inductive CertErr where
  | DSANotSupported
  | InvalidPEMBlock
  | InvalidCertificatePEM
  | InvalidCertificateId
  | InvalidPrivateKey
  | MissingPrivateKey
  | KeyTooSmall
  | InvalidUserId
  | InvalidUserName
  | InvalidUserEmail
  | ParseFailed (msg : String)
  deriving DecidableEq, Repr

/-- A decoded PEM block (Go `pem.Block`): declared type line and
binary payload. -/
structure PEMBlock where
  BlockType : String
  Bytes : List Nat
  deriving DecidableEq, Repr

/-- Public key of a parsed certificate: RSA modulus, EC point, or some
other algorithm. -/
inductive PubKey where
  | rsa (N : Nat)
  | ec (X Y : Nat)
  | other
  deriving DecidableEq, Repr

/-- A parsed x509 certificate: its raw DER bytes and its public key
(the only fields the pipeline reads). -/
structure X509Cert where
  Raw : List Nat
  PublicKey : PubKey
  deriving DecidableEq, Repr

/-- Go `rsa.PrivateKey` (only the modulus is read by the pipeline). -/
structure RSAPrivateKey where
  N : Nat
  deriving DecidableEq, Repr

/-- Go `ecdsa.PrivateKey` (only the public point is read). -/
structure ECPrivateKey where
  X : Nat
  Y : Nat
  deriving DecidableEq, Repr

/-- The dynamic type of `Certificate.Key`: RSA or EC private key. -/
inductive Key where
  | rsa (k : RSAPrivateKey)
  | ec (k : ECPrivateKey)
  deriving DecidableEq, Repr

/-- Wire record (Go `CertificateData`): all-string intermediary form. -/
structure CertificateData where
  Id : String
  UserId : String
  Active : Bool
  Cert : String
  Key : String
  deriving DecidableEq, Repr

/-- In-memory record (Go `Certificate`). -/
structure Certificate where
  Id : String
  UserId : String
  Active : Bool
  Cert : X509Cert
  Key : Key
  deriving DecidableEq, Repr

/-- The configuration globals of the Go program
(`OptVerifyCertificate`, `OptMinimumRSABits`, `OptMinimumECBits`),
threaded explicitly. -/
structure Options where
  OptVerifyCertificate : Bool
  OptMinimumRSABits : Nat
  OptMinimumECBits : Nat
  deriving DecidableEq, Repr

/-- The hardcoded option values of the source. -/
def defaultOptions : Options :=
  { OptVerifyCertificate := false
    OptMinimumRSABits := 1024
    OptMinimumECBits := 160 }

/-- Environment of external library functions used by the pipeline:
encoding/pem, crypto/x509 parsing and marshalling, crypto/sha256,
x509 chain verification, strconv.Atoi and the email regexp. -/
structure CryptoLib where
  pemDecode : String → Option PEMBlock
  pemEncode : PEMBlock → String
  parseCertificate : List Nat → Except String X509Cert
  parsePKCS1PrivateKey : List Nat → Except String RSAPrivateKey
  parseECPrivateKey : List Nat → Except String ECPrivateKey
  parsePKCS8PrivateKey : List Nat → Except String Key
  marshalPKCS1PrivateKey : RSAPrivateKey → List Nat
  marshalECPrivateKey : ECPrivateKey → List Nat
  sha256 : List Nat → List Nat
  chainVerify : X509Cert → Except String Unit
  atoi : String → Option Int
  emailMatch : String → Bool

deriving instance DecidableEq for Except

/-- Go `PEMBlockNormalize`: split on the five-dash delimiter; any
segment count other than 5 fails with `InvalidPEMBlock`; otherwise
replace spaces by newlines in the body segment (index 2) and rejoin. -/
def PEMBlockNormalize (jsonpem : String) : Except CertErr String :=
  match splitDashes jsonpem.toList with
  | [p0, p1, p2, p3, p4] =>
    .ok (String.mk (joinWith dashes [p0, p1, spacesToNewlines p2, p3, p4]))
  | _ => .error .InvalidPEMBlock

/-- The private-key decoding section of `NewCertificateFromData`
(source part_001 lines 70-102): normalize the key field, then dispatch
on the PEM block's declared type. -/
def decodePrivateKey (lib : CryptoLib) (keyField : String) : Except CertErr Key :=
  match PEMBlockNormalize keyField with
  | .error e => .error e
  | .ok s =>
    match lib.pemDecode s with
    | none => .error .MissingPrivateKey
    | some blk =>
      if blk.BlockType = "DSA PRIVATE KEY" then .error .DSANotSupported
      else if blk.BlockType ≠ "RSA PRIVATE KEY" ∧ blk.BlockType ≠ "EC PRIVATE KEY"
          ∧ blk.BlockType ≠ "PRIVATE KEY" then .error .MissingPrivateKey
      else if blk.BlockType = "RSA PRIVATE KEY" then
        match lib.parsePKCS1PrivateKey blk.Bytes with
        | .error m => .error (.ParseFailed m)
        | .ok k => .ok (.rsa k)
      else if blk.BlockType = "EC PRIVATE KEY" then
        match lib.parseECPrivateKey blk.Bytes with
        | .error m => .error (.ParseFailed m)
        | .ok k => .ok (.ec k)
      else
        match lib.parsePKCS8PrivateKey blk.Bytes with
        | .error m => .error (.ParseFailed m)
        | .ok k => .ok k

/-- Go `Certificate.Verify`: optional chain verification, identity
check, key/certificate correspondence, minimum key-size policy. -/
def Certificate.Verify (lib : CryptoLib) (opt : Options) (cert : Certificate) :
    Except CertErr Unit :=
  match (if opt.OptVerifyCertificate then lib.chainVerify cert.Cert else .ok ()) with
  | .error m => .error (.ParseFailed m)
  | .ok _ =>
    if cert.Id ≠ hexEncodeBytes (lib.sha256 cert.Cert.Raw) then
      .error .InvalidCertificateId
    else
      match cert.Key with
      | .rsa priv =>
        match cert.Cert.PublicKey with
        | .rsa pubN =>
          if priv.N ≠ pubN then .error .InvalidPrivateKey
          else if bitLen priv.N < opt.OptMinimumRSABits then .error .KeyTooSmall
          else .ok ()
        | _ => .error .InvalidPrivateKey
      | .ec priv =>
        match cert.Cert.PublicKey with
        | .ec pubX pubY =>
          if priv.X ≠ pubX ∨ priv.Y ≠ pubY then .error .InvalidPrivateKey
          else if bitLen priv.X < opt.OptMinimumECBits ∨ bitLen priv.Y < opt.OptMinimumECBits then
            .error .KeyTooSmall
          else .ok ()
        | _ => .error .InvalidPrivateKey

/-- Go `NewCertificateFromData`: decode the wire record into a
verified in-memory `Certificate`. -/
def NewCertificateFromData (lib : CryptoLib) (opt : Options)
    (certData : CertificateData) : Except CertErr Certificate :=
  match PEMBlockNormalize certData.Cert with
  | .error e => .error e
  | .ok certBytes =>
    match lib.pemDecode certBytes with
    | none => .error .InvalidCertificatePEM
    | some certPEMBlock =>
      if certPEMBlock.BlockType ≠ "CERTIFICATE" then .error .InvalidCertificatePEM
      else
        match lib.parseCertificate certPEMBlock.Bytes with
        | .error m => .error (.ParseFailed m)
        | .ok parsed =>
          match decodePrivateKey lib certData.Key with
          | .error e => .error e
          | .ok key =>
            let theId :=
              if certData.Id = "" then hexEncodeBytes (lib.sha256 certPEMBlock.Bytes)
              else certData.Id
            let cert : Certificate :=
              { Id := theId, UserId := certData.UserId, Active := certData.Active
                Cert := parsed, Key := key }
            match Certificate.Verify lib opt cert with
            | .error e => .error e
            | .ok _ => .ok cert

/-- Go `Certificate.GetData`: re-encode the record into wire form.
The source labels the EC private-key block "DSA PRIVATE KEY"
(part_001 line 188); that is translated verbatim here.  The source's
default branch (a key that is neither RSA nor EC) panics and is
unrepresentable in the closed `Key` type. -/
def Certificate.GetData (lib : CryptoLib) (cert : Certificate) : CertificateData :=
  let certStr := lib.pemEncode { BlockType := "CERTIFICATE", Bytes := cert.Cert.Raw }
  let keyStr :=
    match cert.Key with
    | .rsa priv =>
      lib.pemEncode { BlockType := "RSA PRIVATE KEY"
                      Bytes := lib.marshalPKCS1PrivateKey priv }
    | .ec priv =>
      lib.pemEncode { BlockType := "DSA PRIVATE KEY"
                      Bytes := lib.marshalECPrivateKey priv }
  { Id := cert.Id, UserId := cert.UserId, Active := cert.Active
    Cert := certStr, Key := keyStr }

/-- Go `User`: the revision whose `Certs` holds full wire records. -/
structure User where
  Id : String
  Name : String
  Email : String
  Certs : List CertificateData
  deriving DecidableEq, Repr

/-- The user-id test of `User.ValidateNormalize`: `strconv.Atoi`
failed or the parsed value is not positive. -/
def atoiNonpositive : Option Int → Bool
  | none => true
  | some k => decide (k ≤ 0)

/-- The certificate loop of `User.ValidateNormalize` (source part_002
lines 76-84): each entry is decoded and, on success, replaced in place
by its re-encoded form; the first failure stops the loop, leaving the
failing entry and all later entries untouched (earlier entries stay
replaced). -/
def normalizeCerts (lib : CryptoLib) (opt : Options) :
    List CertificateData → List CertificateData × Option CertErr
  | [] => ([], none)
  | cd :: rest =>
    match NewCertificateFromData lib opt cd with
    | .error e => (cd :: rest, some e)
    | .ok c =>
      let r := normalizeCerts lib opt rest
      (Certificate.GetData lib c :: r.1, r.2)

/-- Go `User.ValidateNormalize`: field checks, then the certificate
loop; returns the (possibly partially mutated) user together with the
error value. -/
def User.ValidateNormalize (lib : CryptoLib) (opt : Options) (u : User) :
    User × Option CertErr :=
  if (u.Id != "") && atoiNonpositive (lib.atoi u.Id) then (u, some .InvalidUserId)
  else if 746 < u.Name.length then (u, some .InvalidUserName)
  else if !(lib.emailMatch u.Email) then (u, some .InvalidUserEmail)
  else
    let r := normalizeCerts lib opt u.Certs
    ({ u with Certs := r.1 }, r.2)

/-- Result of the ReadUserHandler certificate filter: the final slice,
or a slice-bounds panic. -/
inductive FilterOutcome where
  | ok (certs : List CertificateData)
  | outOfRange
  deriving DecidableEq, Repr

/-- The in-place element deletion `append(s[:i], s[i+1:]...)` on a
slice of current length `m` over backing array `backing`: positions
`i .. m-2` receive the old `i+1 .. m-1`, later positions keep their
old values. -/
def sliceDelete (backing : List CertificateData) (i m : Nat) : List CertificateData :=
  backing.take i ++ (backing.drop (i + 1)).take (m - (i + 1)) ++ backing.drop (m - 1)

/-- Go `for i, cert := range user.Certs { if !keep(cert) { user.Certs =
append(user.Certs[:i], user.Certs[i+1:]...) } }`: the range header is
captured once (length `fuel`), but elements are read from the mutated
backing array; `m` is the current slice length.  When `i+1` exceeds
`m`, the slice expression `user.Certs[i+1:]` is out of range. -/
def limitCertsLoop (keep : CertificateData → Bool) :
    Nat → Nat → List CertificateData → Nat → FilterOutcome
  | 0, _, backing, m => .ok (backing.take m)
  | fuel + 1, i, backing, m =>
    let cert := backing.getD i { Id := "", UserId := "", Active := false, Cert := "", Key := "" }
    if keep cert then limitCertsLoop keep fuel (i + 1) backing m
    else if m < i + 1 then .outOfRange
    else limitCertsLoop keep fuel (i + 1) (sliceDelete backing i m) (m - 1)

/-- The `show-certs` filter of `ReadUserHandler` (main.go lines
432-447): keep active certificates for "active", inactive ones for
"inactive", everything otherwise. -/
def ReadUserHandlerLimitCerts (limitcerts : String) (certs : List CertificateData) :
    FilterOutcome :=
  if limitcerts = "active" then
    limitCertsLoop (fun c => c.Active) certs.length 0 certs certs.length
  else if limitcerts = "inactive" then
    limitCertsLoop (fun c => !c.Active) certs.length 0 certs certs.length
  else .ok certs

/-- Concrete instantiation of the external-library environment, used
to evaluate the pipeline on explicit inputs.  PEM blocks are encoded
with a hex body; certificates are a tag byte (1 = RSA, 2 = EC)
followed by the base-256 key material; `Raw` is the full DER input, as
with `x509.ParseCertificate`. -/
def wLib : CryptoLib where
  pemDecode s :=
    match splitDashes s.toList with
    | [_, b, body, _, _] =>
      if ("BEGIN " : String).toList.isPrefixOf b then
        some { BlockType := String.mk (b.drop 6)
               Bytes := hexDecChars (body.filter fun c => c ≠ '\n') }
      else none
    | _ => none
  pemEncode blk :=
    "-----BEGIN " ++ blk.BlockType ++ "-----\n"
      ++ hexEncodeBytes blk.Bytes ++ "\n-----END " ++ blk.BlockType ++ "-----\n"
  parseCertificate der :=
    match der with
    | 1 :: rest => .ok { Raw := der, PublicKey := .rsa (natFromBase256 rest) }
    | 2 :: rest =>
      .ok { Raw := der
            PublicKey := .ec (natFromBase256 (rest.take 20)) (natFromBase256 (rest.drop 20)) }
    | _ => .error "x509: malformed certificate"
  parsePKCS1PrivateKey b := .ok { N := natFromBase256 b }
  parseECPrivateKey b :=
    .ok { X := natFromBase256 (b.take 20), Y := natFromBase256 (b.drop 20) }
  parsePKCS8PrivateKey b :=
    match b with
    | 1 :: rest => .ok (.rsa { N := natFromBase256 rest })
    | 2 :: rest =>
      .ok (.ec { X := natFromBase256 (rest.take 20), Y := natFromBase256 (rest.drop 20) })
    | _ => .error "x509: malformed pkcs8 key"
  marshalPKCS1PrivateKey k := base256Digits 130 k.N
  marshalECPrivateKey k := base256Digits 20 k.X ++ base256Digits 20 k.Y
  sha256 l := [l.foldl (fun a b => (a * 31 + b) % 251) 7]
  chainVerify _ := .ok ()
  atoi s :=
    if s.toList ≠ [] ∧ s.toList.all Char.isDigit then some (Int.ofNat (digitsToNat s.toList))
    else none
  emailMatch s := s = "a@b.co"

/-- EC coordinate used in the concrete examples: 160 bits, so it meets
the default `OptMinimumECBits = 160` policy. -/
def ecX : Nat := 2 ^ 160 - 1

/-- Second EC coordinate (equal to `ecX`). -/
def ecY : Nat := 2 ^ 160 - 1

/-- DER bytes of the concrete EC certificate. -/
def ecCertDer : List Nat := 2 :: (base256Digits 20 ecX ++ base256Digits 20 ecY)

/-- SEC1 bytes of the matching EC private key. -/
def ecKeyDer : List Nat := base256Digits 20 ecX ++ base256Digits 20 ecY

/-- A valid EC wire pair with empty (auto-derived) Id. -/
def ecWire : CertificateData :=
  { Id := "", UserId := "7", Active := true
    Cert := wLib.pemEncode { BlockType := "CERTIFICATE", Bytes := ecCertDer }
    Key := wLib.pemEncode { BlockType := "EC PRIVATE KEY", Bytes := ecKeyDer } }

/-- The record `ecWire` decodes to. -/
def ecRecord : Certificate :=
  { Id := hexEncodeBytes (wLib.sha256 ecCertDer), UserId := "7", Active := true
    Cert := { Raw := ecCertDer, PublicKey := .ec ecX ecY }
    Key := .ec { X := ecX, Y := ecY } }

lemma list_length_eq_five {α : Type} (l : List α) (h : l.length = 5) :
    ∃ a b c d e, l = [a, b, c, d, e] := by
  rcases l with _ | ⟨a, l⟩; · simp at h
  rcases l with _ | ⟨b, l⟩; · simp at h
  rcases l with _ | ⟨c, l⟩; · simp at h
  rcases l with _ | ⟨d, l⟩; · simp at h
  rcases l with _ | ⟨e, l⟩; · simp at h
  rcases l with _ | ⟨f, l⟩
  · exact ⟨a, b, c, d, e, rfl⟩
  · simp at h

/-- C7: `PEMBlockNormalize` fails with `InvalidPEMBlock` exactly when
splitting on the five-dash delimiter yields a segment count other than
5; otherwise it returns the five segments rejoined with the delimiter,
with spaces replaced by newlines in the body segment only. -/
theorem pem_block_normalize_spec (s : String) :
    (PEMBlockNormalize s = .error .InvalidPEMBlock ↔ (splitDashes s.toList).length ≠ 5)
    ∧ (∀ p0 p1 p2 p3 p4, splitDashes s.toList = [p0, p1, p2, p3, p4] →
        PEMBlockNormalize s
          = .ok (String.mk (joinWith dashes [p0, p1, spacesToNewlines p2, p3, p4]))) := by
  constructor
  · constructor
    · intro herr h5
      obtain ⟨p0, p1, p2, p3, p4, hl⟩ := list_length_eq_five _ h5
      simp only [PEMBlockNormalize, hl] at herr
      exact Except.noConfusion herr
    · intro h5
      unfold PEMBlockNormalize
      split
      · rename_i p0 p1 p2 p3 p4 heq
        have heq' : splitDashes s.toList = [p0, p1, p2, p3, p4] := heq
        exact absurd (by rw [heq']; rfl) h5
      · rfl
  · intro p0 p1 p2 p3 p4 heq
    simp only [PEMBlockNormalize, heq]

/-- Witness for C7 at concrete inputs: a two-block concatenation
yields 9 segments, hence `InvalidPEMBlock`. -/
theorem pem_block_normalize_spec_witness :
    PEMBlockNormalize
      "-----BEGIN A-----\nxx\n-----END A-----\n-----BEGIN B-----\nyy\n-----END B-----\n"
      = .error .InvalidPEMBlock :=
  (pem_block_normalize_spec
    "-----BEGIN A-----\nxx\n-----END A-----\n-----BEGIN B-----\nyy\n-----END B-----\n").1.2
    (by decide)

/-- C6: the key decoder dispatches strictly on the PEM block's
declared type: a "DSA PRIVATE KEY" block fails with `DSANotSupported`;
an absent block or any other unsupported type fails with
`MissingPrivateKey`; the three supported types are parsed as PKCS1,
SEC1, or PKCS8 respectively. -/
theorem decode_private_key_dispatch (lib : CryptoLib) (s s' : String)
    (h : PEMBlockNormalize s = .ok s') :
    (lib.pemDecode s' = none → decodePrivateKey lib s = .error .MissingPrivateKey)
    ∧ (∀ blk, lib.pemDecode s' = some blk →
        (blk.BlockType = "DSA PRIVATE KEY" →
          decodePrivateKey lib s = .error .DSANotSupported)
        ∧ (blk.BlockType ≠ "DSA PRIVATE KEY" → blk.BlockType ≠ "RSA PRIVATE KEY" →
            blk.BlockType ≠ "EC PRIVATE KEY" → blk.BlockType ≠ "PRIVATE KEY" →
            decodePrivateKey lib s = .error .MissingPrivateKey)
        ∧ (blk.BlockType = "RSA PRIVATE KEY" →
            decodePrivateKey lib s
              = match lib.parsePKCS1PrivateKey blk.Bytes with
                | .error m => .error (.ParseFailed m)
                | .ok k => .ok (.rsa k))
        ∧ (blk.BlockType = "EC PRIVATE KEY" →
            decodePrivateKey lib s
              = match lib.parseECPrivateKey blk.Bytes with
                | .error m => .error (.ParseFailed m)
                | .ok k => .ok (.ec k))
        ∧ (blk.BlockType = "PRIVATE KEY" →
            decodePrivateKey lib s
              = match lib.parsePKCS8PrivateKey blk.Bytes with
                | .error m => .error (.ParseFailed m)
                | .ok k => .ok k)) := by
  constructor
  · intro hnone
    simp [decodePrivateKey, h, hnone]
  · intro blk hsome
    refine ⟨fun hT => by simp [decodePrivateKey, h, hsome, hT], ?_, ?_, ?_, ?_⟩
    · intro hD hR hE hP
      simp [decodePrivateKey, h, hsome, hD, hR, hE, hP]
    · intro hT
      simp [decodePrivateKey, h, hsome, hT]
    · intro hT
      simp [decodePrivateKey, h, hsome, hT]
    · intro hT
      simp [decodePrivateKey, h, hsome, hT]

/-- Witness for C6: a "DSA PRIVATE KEY" block is rejected with
`DSANotSupported`. -/
theorem decode_private_key_dispatch_witness :
    decodePrivateKey wLib (wLib.pemEncode { BlockType := "DSA PRIVATE KEY", Bytes := [] })
      = .error .DSANotSupported :=
  ((decode_private_key_dispatch wLib
      (wLib.pemEncode { BlockType := "DSA PRIVATE KEY", Bytes := [] })
      (wLib.pemEncode { BlockType := "DSA PRIVATE KEY", Bytes := [] })
      (by decide)).2
    { BlockType := "DSA PRIVATE KEY", Bytes := [] } (by decide)).1 (by decide)

lemma verify_ok_id (lib : CryptoLib) (opt : Options) (c : Certificate)
    (h : Certificate.Verify lib opt c = .ok ()) :
    c.Id = hexEncodeBytes (lib.sha256 c.Cert.Raw) := by
  by_contra hid
  unfold Certificate.Verify at h
  split at h
  · exact Except.noConfusion h
  · rw [if_pos hid] at h
    exact Except.noConfusion h

lemma newCert_ok_verify (lib : CryptoLib) (opt : Options) (cd : CertificateData)
    (c : Certificate) (h : NewCertificateFromData lib opt cd = .ok c) :
    Certificate.Verify lib opt c = .ok () := by
  cases h1 : PEMBlockNormalize cd.Cert with
  | error e => simp [NewCertificateFromData, h1] at h
  | ok s =>
    cases h2 : lib.pemDecode s with
    | none => simp [NewCertificateFromData, h1, h2] at h
    | some blk =>
      by_cases h3 : blk.BlockType = "CERTIFICATE"
      · cases h4 : lib.parseCertificate blk.Bytes with
        | error m => simp [NewCertificateFromData, h1, h2, h3, h4] at h
        | ok parsed =>
          cases h5 : decodePrivateKey lib cd.Key with
          | error e => simp [NewCertificateFromData, h1, h2, h3, h4, h5] at h
          | ok key =>
            simp only [NewCertificateFromData] at h
            simp only [h1] at h
            simp only [h2] at h
            rw [if_neg (not_not_intro h3)] at h
            simp only [h4] at h
            simp only [h5] at h
            split at h
            · exact Except.noConfusion h
            · rename_i u heq
              cases u
              injection h with hcc
              subst hcc
              exact heq
      · simp [NewCertificateFromData, h1, h2, h3] at h

/-- C5: once the consistency check is reached (chain verification off,
identity check passing), a key whose variant does not match the
certificate's public-key algorithm, an RSA key whose modulus differs
from the certificate's, or an EC key whose public point differs from
the certificate's, all fail with `InvalidPrivateKey`. -/
theorem verify_key_certificate_correspondence (lib : CryptoLib) (opt : Options)
    (c : Certificate) (hv : opt.OptVerifyCertificate = false)
    (hid : c.Id = hexEncodeBytes (lib.sha256 c.Cert.Raw)) :
    (∀ k, c.Key = .rsa k → (∀ n, c.Cert.PublicKey ≠ .rsa n) →
      Certificate.Verify lib opt c = .error .InvalidPrivateKey)
    ∧ (∀ k, c.Key = .ec k → (∀ x y, c.Cert.PublicKey ≠ .ec x y) →
      Certificate.Verify lib opt c = .error .InvalidPrivateKey)
    ∧ (∀ k n, c.Key = .rsa k → c.Cert.PublicKey = .rsa n → k.N ≠ n →
      Certificate.Verify lib opt c = .error .InvalidPrivateKey)
    ∧ (∀ k x y, c.Key = .ec k → c.Cert.PublicKey = .ec x y → (k.X ≠ x ∨ k.Y ≠ y) →
      Certificate.Verify lib opt c = .error .InvalidPrivateKey) := by
  refine ⟨?_, ?_, ?_, ?_⟩
  · intro k hk hpub
    cases hp : c.Cert.PublicKey with
    | rsa n => exact absurd hp (hpub n)
    | ec x y => simp [Certificate.Verify, hv, hid, hk, hp]
    | other => simp [Certificate.Verify, hv, hid, hk, hp]
  · intro k hk hpub
    cases hp : c.Cert.PublicKey with
    | rsa n => simp [Certificate.Verify, hv, hid, hk, hp]
    | ec x y => exact absurd hp (hpub x y)
    | other => simp [Certificate.Verify, hv, hid, hk, hp]
  · intro k n hk hp hne
    simp [Certificate.Verify, hv, hid, hk, hp, hne]
  · intro k x y hk hp hne
    simp [Certificate.Verify, hv, hid, hk, hp]
    intro hx hy
    rcases hne with hne | hne
    · exact absurd hx hne
    · exact absurd hy hne

/-- Concrete mismatched pair: EC certificate with an RSA private key. -/
def mismatchCert : Certificate :=
  { Id := hexEncodeBytes (wLib.sha256 [2, 3]), UserId := "1", Active := true
    Cert := { Raw := [2, 3], PublicKey := .ec 5 6 }, Key := .rsa { N := 9 } }

/-- Witness for C5: the algorithm mismatch fails with
`InvalidPrivateKey`. -/
theorem verify_key_certificate_correspondence_witness :
    Certificate.Verify wLib defaultOptions mismatchCert = .error .InvalidPrivateKey :=
  (verify_key_certificate_correspondence wLib defaultOptions mismatchCert rfl
      (by decide)).1 { N := 9 } rfl (by intro n hcon; simp [mismatchCert] at hcon)

/-- C8: once the key-size check is reached (chain verification off,
identity check passing, key matching the certificate), an RSA modulus
of exactly the configured minimum bit length passes while one bit
below fails with `KeyTooSmall`, and an EC key fails with `KeyTooSmall`
exactly when either coordinate's bit length is below the configured EC
threshold. -/
theorem verify_key_size_boundary (lib : CryptoLib) (opt : Options) (c : Certificate)
    (hv : opt.OptVerifyCertificate = false)
    (hid : c.Id = hexEncodeBytes (lib.sha256 c.Cert.Raw)) :
    (∀ n, c.Key = .rsa { N := n } → c.Cert.PublicKey = .rsa n →
      ((bitLen n = opt.OptMinimumRSABits → Certificate.Verify lib opt c = .ok ())
       ∧ (bitLen n + 1 = opt.OptMinimumRSABits →
          Certificate.Verify lib opt c = .error .KeyTooSmall)))
    ∧ (∀ x y, c.Key = .ec { X := x, Y := y } → c.Cert.PublicKey = .ec x y →
        (Certificate.Verify lib opt c = .error .KeyTooSmall
          ↔ (bitLen x < opt.OptMinimumECBits ∨ bitLen y < opt.OptMinimumECBits))) := by
  constructor
  · intro n hk hp
    have hred : Certificate.Verify lib opt c
        = if bitLen n < opt.OptMinimumRSABits then .error .KeyTooSmall else .ok () := by
      simp [Certificate.Verify, hv, hid, hk, hp]
    constructor
    · intro he
      rw [hred, if_neg (by omega)]
    · intro he
      rw [hred, if_pos (by omega)]
  · intro x y hk hp
    have hred : Certificate.Verify lib opt c
        = if bitLen x < opt.OptMinimumECBits ∨ bitLen y < opt.OptMinimumECBits then
            .error .KeyTooSmall else .ok () := by
      simp [Certificate.Verify, hv, hid, hk, hp]
    rw [hred]
    by_cases hsz : bitLen x < opt.OptMinimumECBits ∨ bitLen y < opt.OptMinimumECBits
    · simp [hsz]
    · simp [hsz]

/-- Options with small thresholds used to exercise the boundary. -/
def smallOptions : Options :=
  { OptVerifyCertificate := false, OptMinimumRSABits := 4, OptMinimumECBits := 3 }

/-- RSA pair whose modulus has exactly the configured minimum bits. -/
def rsaAtMin : Certificate :=
  { Id := hexEncodeBytes (wLib.sha256 [9]), UserId := "1", Active := true
    Cert := { Raw := [9], PublicKey := .rsa 8 }, Key := .rsa { N := 8 } }

/-- RSA pair whose modulus is one bit below the configured minimum. -/
def rsaBelowMin : Certificate :=
  { Id := hexEncodeBytes (wLib.sha256 [9]), UserId := "1", Active := true
    Cert := { Raw := [9], PublicKey := .rsa 4 }, Key := .rsa { N := 4 } }

/-- EC pair whose X coordinate is below the configured minimum. -/
def ecBelowMin : Certificate :=
  { Id := hexEncodeBytes (wLib.sha256 [9]), UserId := "1", Active := true
    Cert := { Raw := [9], PublicKey := .ec 2 5 }, Key := .ec { X := 2, Y := 5 } }

/-- Witness for C8 at the boundary: 4-bit modulus passes with minimum
4, 3-bit modulus fails, and a small EC coordinate fails. -/
theorem verify_key_size_boundary_witness :
    Certificate.Verify wLib smallOptions rsaAtMin = .ok ()
    ∧ Certificate.Verify wLib smallOptions rsaBelowMin = .error .KeyTooSmall
    ∧ Certificate.Verify wLib smallOptions ecBelowMin = .error .KeyTooSmall :=
  ⟨((verify_key_size_boundary wLib smallOptions rsaAtMin rfl rfl).1 8 rfl rfl).1 (by decide),
   ((verify_key_size_boundary wLib smallOptions rsaBelowMin rfl rfl).1 4 rfl rfl).2 (by decide),
   ((verify_key_size_boundary wLib smallOptions ecBelowMin rfl rfl).2 2 5 rfl rfl).mpr
     (Or.inl (by decide))⟩

lemma hexEncodeBytes_lower (l : List Nat) :
    ∀ ch ∈ (hexEncodeBytes l).toList, ch ∈ ("0123456789abcdef" : String).toList := by
  intro ch hch
  have hdig : ∀ n, n < 16 → hexDigitChar n ∈ ("0123456789abcdef" : String).toList := by
    decide
  have hch' : ch ∈ (l.map byteToHex).flatten := hch
  rw [List.mem_flatten] at hch'
  obtain ⟨seg, hseg, hc⟩ := hch'
  rw [List.mem_map] at hseg
  obtain ⟨b, hb, hbeq⟩ := hseg
  subst hbeq
  simp only [byteToHex, List.mem_cons, List.mem_singleton] at hc
  rcases hc with hc | hc | hc
  · subst hc; exact hdig _ (by omega)
  · subst hc; exact hdig _ (by omega)
  · simp at hc

/-- C2: every successfully decoded record's Id is the lowercase hex
encoding of the SHA-256 hash of the certificate's DER bytes (in
particular when the supplied Id was empty and auto-derived); and a
non-empty supplied Id differing from that hash makes
`NewCertificateFromData` fail with `InvalidCertificateId`. -/
theorem certificate_id_content_addressing (lib : CryptoLib) (opt : Options)
    (cd : CertificateData) (hv : opt.OptVerifyCertificate = false) :
    (∀ c, NewCertificateFromData lib opt cd = .ok c →
      c.Id = hexEncodeBytes (lib.sha256 c.Cert.Raw)
        ∧ ∀ ch ∈ c.Id.toList, ch ∈ ("0123456789abcdef" : String).toList)
    ∧ (∀ s blk xc k, PEMBlockNormalize cd.Cert = .ok s → lib.pemDecode s = some blk →
        blk.BlockType = "CERTIFICATE" → lib.parseCertificate blk.Bytes = .ok xc →
        decodePrivateKey lib cd.Key = .ok k → cd.Id ≠ "" →
        cd.Id ≠ hexEncodeBytes (lib.sha256 xc.Raw) →
        NewCertificateFromData lib opt cd = .error .InvalidCertificateId) := by
  constructor
  · intro c hc
    have hver := newCert_ok_verify lib opt cd c hc
    have hid := verify_ok_id lib opt c hver
    refine ⟨hid, ?_⟩
    rw [hid]
    exact hexEncodeBytes_lower _
  · intro s blk xc k h1 h2 h3 h4 h5 hne hneq
    simp [NewCertificateFromData, Certificate.Verify, h1, h2, h3, h4, h5, hne, hneq, hv]

/-- Witness for C2: the auto-derived Id of the concrete EC record is
the hash of its DER bytes. -/
theorem certificate_id_content_addressing_witness :
    ecRecord.Id = hexEncodeBytes (wLib.sha256 ecRecord.Cert.Raw) :=
  ((certificate_id_content_addressing wLib defaultOptions ecWire rfl).1 ecRecord
    (by decide)).1

lemma verify_id_ok_no_id_error (lib : CryptoLib) (opt : Options) (c : Certificate)
    (hid : c.Id = hexEncodeBytes (lib.sha256 c.Cert.Raw)) :
    Certificate.Verify lib opt c ≠ .error .InvalidCertificateId := by
  intro h
  unfold Certificate.Verify at h
  split at h
  · simp at h
  · rw [if_neg (not_not_intro hid)] at h
    cases hk : c.Key with
    | rsa k =>
      simp only [hk] at h
      cases hp : c.Cert.PublicKey with
      | rsa n => simp only [hp] at h; split_ifs at h <;> simp_all
      | ec x y => simp only [hp] at h; simp at h
      | other => simp only [hp] at h; simp at h
    | ec k =>
      simp only [hk] at h
      cases hp : c.Cert.PublicKey with
      | rsa n => simp only [hp] at h; simp at h
      | ec x y => simp only [hp] at h; split_ifs at h <;> simp_all
      | other => simp only [hp] at h; simp at h

/-- C9: when the supplied Id is empty and both the certificate and the
key decode successfully, the identity check inside `Verify` cannot
fail: the Id derived from the PEM block's DER payload equals the hash
of the parsed certificate's raw bytes (`ParseCertificate` preserves
the input DER as `Raw`), so `InvalidCertificateId` is unreachable. -/
theorem auto_derived_id_check_passes (lib : CryptoLib) (opt : Options)
    (cd : CertificateData) (s : String) (blk : PEMBlock) (xc : X509Cert) (k : Key)
    (hid : cd.Id = "")
    (h1 : PEMBlockNormalize cd.Cert = .ok s) (h2 : lib.pemDecode s = some blk)
    (h3 : blk.BlockType = "CERTIFICATE") (h4 : lib.parseCertificate blk.Bytes = .ok xc)
    (hraw : xc.Raw = blk.Bytes) (h5 : decodePrivateKey lib cd.Key = .ok k) :
    NewCertificateFromData lib opt cd ≠ .error .InvalidCertificateId := by
  intro hcontra
  simp only [NewCertificateFromData] at hcontra
  simp only [h1] at hcontra
  simp only [h2] at hcontra
  rw [if_neg (not_not_intro h3)] at hcontra
  simp only [h4] at hcontra
  simp only [h5] at hcontra
  simp only [hid, if_pos] at hcontra
  split at hcontra
  · rename_i e heq
    injection hcontra with he
    subst he
    exact verify_id_ok_no_id_error lib opt _ (by simp [hraw]) heq
  · exact Except.noConfusion hcontra

/-- Witness for C9 on the concrete EC pair with empty supplied Id. -/
theorem auto_derived_id_check_passes_witness :
    NewCertificateFromData wLib defaultOptions ecWire ≠ .error .InvalidCertificateId :=
  auto_derived_id_check_passes wLib defaultOptions ecWire
    (wLib.pemEncode { BlockType := "CERTIFICATE", Bytes := ecCertDer })
    { BlockType := "CERTIFICATE", Bytes := ecCertDer }
    { Raw := ecCertDer, PublicKey := .ec ecX ecY }
    (.ec { X := ecX, Y := ecY })
    rfl (by decide) (by decide) (by decide) (by decide) (by decide) (by decide)

/-- The replacement `User.ValidateNormalize` performs on one
successfully decoded entry: decode then re-encode (entries that fail
to decode are left as they are). -/
def normalizeCert (lib : CryptoLib) (opt : Options) (cd : CertificateData) :
    CertificateData :=
  match NewCertificateFromData lib opt cd with
  | .ok c => Certificate.GetData lib c
  | .error _ => cd

lemma normalizeCerts_first_error (lib : CryptoLib) (opt : Options)
    (pre post : List CertificateData) (bad : CertificateData) (e : CertErr)
    (hpre : ∀ cd ∈ pre, ∃ c, NewCertificateFromData lib opt cd = .ok c)
    (hbad : NewCertificateFromData lib opt bad = .error e) :
    normalizeCerts lib opt (pre ++ bad :: post)
      = (pre.map (normalizeCert lib opt) ++ bad :: post, some e) := by
  induction pre with
  | nil => simp [normalizeCerts, hbad]
  | cons cd pre ih =>
    obtain ⟨c, hc⟩ := hpre cd (List.mem_cons_self _ _)
    have ih' := ih fun x hx => hpre x (List.mem_cons_of_mem _ hx)
    simp [normalizeCerts, hc, ih', normalizeCert]

/-- C4 (amended): when the user-field checks pass and the certificate
list splits as `pre ++ bad :: post` with every entry of `pre` decoding
successfully and `bad` failing with `e`, `ValidateNormalize` returns
`e` (the first failing entry's error) and the list with the entries
before the failure replaced by their normalized forms, the failing
entry and all later entries unchanged. -/
theorem validate_normalize_partial_normalization (lib : CryptoLib) (opt : Options)
    (u : User) (pre post : List CertificateData) (bad : CertificateData) (e : CertErr)
    (hid : u.Id = "" ∨ ∃ k, lib.atoi u.Id = some k ∧ 0 < k)
    (hname : u.Name.length ≤ 746)
    (hemail : lib.emailMatch u.Email = true)
    (hsplit : u.Certs = pre ++ bad :: post)
    (hpre : ∀ cd ∈ pre, ∃ c, NewCertificateFromData lib opt cd = .ok c)
    (hbad : NewCertificateFromData lib opt bad = .error e) :
    User.ValidateNormalize lib opt u
      = ({ u with Certs := pre.map (normalizeCert lib opt) ++ bad :: post }, some e) := by
  have hcond : ¬(((u.Id != "") && atoiNonpositive (lib.atoi u.Id)) = true) := by
    rcases hid with hid | ⟨k, hk, hkpos⟩
    · simp [hid]
    · simp [atoiNonpositive, hk]
      omega
  unfold User.ValidateNormalize
  rw [if_neg hcond]
  rw [if_neg (show ¬(746 < u.Name.length) by omega)]
  rw [if_neg (show ¬((!lib.emailMatch u.Email) = true) by simp [hemail])]
  rw [hsplit]
  rw [normalizeCerts_first_error lib opt pre post bad e hpre hbad]

/-- A wire record whose key block is typed "DSA PRIVATE KEY", so it
fails decoding with `DSANotSupported`. -/
def badWire : CertificateData :=
  { Id := "", UserId := "1", Active := true
    Cert := wLib.pemEncode { BlockType := "CERTIFICATE", Bytes := ecCertDer }
    Key := wLib.pemEncode { BlockType := "DSA PRIVATE KEY", Bytes := [] } }

/-- A user with one valid certificate entry followed by one invalid
entry. -/
def userTwoCerts : User :=
  { Id := "", Name := "Alice", Email := "a@b.co", Certs := [ecWire, badWire] }

/-- Counterexample to C4 as stated: on a user whose second entry fails
validation, `ValidateNormalize` does return the failing entry's error,
but the certificate list is not left unchanged — the first (valid)
entry has been replaced by its re-encoded form. -/
theorem validate_normalize_mutates_list :
    (User.ValidateNormalize wLib defaultOptions userTwoCerts).2 = some .DSANotSupported
    ∧ (User.ValidateNormalize wLib defaultOptions userTwoCerts).1.Certs
        ≠ userTwoCerts.Certs := by
  exact ⟨by decide, by decide⟩

/-- Witness for the amended C4 on the concrete two-entry user. -/
theorem validate_normalize_partial_normalization_witness :
    User.ValidateNormalize wLib defaultOptions userTwoCerts
      = ({ userTwoCerts with
            Certs := [ecWire].map (normalizeCert wLib defaultOptions) ++ badWire :: [] },
         some .DSANotSupported) :=
  validate_normalize_partial_normalization wLib defaultOptions userTwoCerts
    [ecWire] [] badWire .DSANotSupported (Or.inl rfl) (by decide) (by decide) rfl
    (by intro cd hcd
        simp only [List.mem_singleton] at hcd
        subst hcd
        exact ⟨ecRecord, by decide⟩)
    (by decide)

/-- C1 (failing case): the concrete EC wire pair decodes successfully,
but decoding its re-encoding fails with `DSANotSupported` instead of
returning the same record, because `GetData` labels the EC key block
"DSA PRIVATE KEY". -/
theorem roundtrip_ec_key_fails_dsa :
    NewCertificateFromData wLib defaultOptions ecWire = .ok ecRecord
    ∧ NewCertificateFromData wLib defaultOptions (Certificate.GetData wLib ecRecord)
        = .error .DSANotSupported := by
  exact ⟨by decide, by decide⟩

/-- A concrete RSA record for exercising `GetData`. -/
def rsaRecord : Certificate :=
  { Id := hexEncodeBytes (wLib.sha256 [1, 9]), UserId := "1", Active := true
    Cert := { Raw := [1, 9], PublicKey := .rsa 9 }, Key := .rsa { N := 9 } }

/-- C3 (failing case): `GetData` emits the certificate in a
"CERTIFICATE" block and an RSA key in an "RSA PRIVATE KEY" block, but
an EC key is emitted in a "DSA PRIVATE KEY" block rather than an
"EC PRIVATE KEY" one. -/
theorem getdata_block_type_labels :
    (wLib.pemDecode (Certificate.GetData wLib ecRecord).Cert).map PEMBlock.BlockType
        = some "CERTIFICATE"
    ∧ (wLib.pemDecode (Certificate.GetData wLib rsaRecord).Key).map PEMBlock.BlockType
        = some "RSA PRIVATE KEY"
    ∧ (wLib.pemDecode (Certificate.GetData wLib ecRecord).Key).map PEMBlock.BlockType
        = some "DSA PRIVATE KEY" := by
  exact ⟨by decide, by decide, by decide⟩

/-- Inactive certificate entries used for the filter example. -/
def cdI1 : CertificateData :=
  { Id := "i1", UserId := "1", Active := false, Cert := "", Key := "" }

/-- Second inactive certificate entry. -/
def cdI2 : CertificateData :=
  { Id := "i2", UserId := "1", Active := false, Cert := "", Key := "" }

/-- First active certificate entry. -/
def cdA1 : CertificateData :=
  { Id := "a1", UserId := "1", Active := true, Cert := "", Key := "" }

/-- Second active certificate entry. -/
def cdA2 : CertificateData :=
  { Id := "a2", UserId := "1", Active := true, Cert := "", Key := "" }

/-- C10 (failing case): after the "active" filter on
`[inactive, inactive, active]` the result still contains an inactive
certificate (the in-place deletion skips the shifted element), and
symmetrically for the "inactive" filter. -/
theorem read_user_filter_leaves_wrong_certs :
    ReadUserHandlerLimitCerts "active" [cdI1, cdI2, cdA1] = .ok [cdI2, cdA1]
    ∧ cdI2.Active = false
    ∧ ReadUserHandlerLimitCerts "inactive" [cdA1, cdA2, cdI1] = .ok [cdA2, cdI1]
    ∧ cdA2.Active = true := by
  exact ⟨by decide, by decide, by decide, by decide⟩
